import Mathlib

/-!
Shallow embedding of `zoo/squeezenet/squeezenet_bypass_c.py`
(SqueezeNet v1.0 with simple bypass, composable style).

The Python file builds a symbolic Keras layer graph.  We embed the graph as an
inductive `Tensor` term: each Keras layer application becomes a constructor
application recording the layer's hyperparameters and its input tensor(s).
`Concatenate()([a, b])` and `Add()([a, b])` are always applied to two-element
lists in this source, so they are binary constructors here.  Python dropout
rates (floats such as `0.5`) are carried as rationals; the graph structure
never computes with them.  Exceptions raised while building (`AttributeError`,
`IndexError`) are modelled with `Except PyError`.  The class-level attribute
`SqueezeNetBypass.groups`, which the constructor can mutate through
`groups.pop()` aliasing, is threaded explicitly as a `ClassState`.
-/

/-- One block spec of the declarative configuration: a dict
`{ 'n_filters' : _, 'bypass' : _ }` from the `groups` table. -/
structure BlockSpec where
  n_filters : Nat
  bypass : Bool
deriving DecidableEq, Repr

/-- Symbolic Keras tensor graph: each constructor is one layer application
from the source file, recording its hyperparameters and input(s). -/
inductive Tensor where
  | input (shape : List Nat)
  | conv2D (filters : Nat) (kernel : Nat × Nat) (strides : Nat)
      (padding act kernel_initializer : String) (x : Tensor)
  | maxPool2D (pool : Nat × Nat) (strides : Nat) (x : Tensor)
  | concat (a b : Tensor)
  | add (a b : Tensor)
  | dropout (rate : ℚ) (x : Tensor)
  | globalAveragePooling2D (x : Tensor)
  | activationLayer (name : String) (x : Tensor)
deriving DecidableEq, Repr

/-- Python exceptions that the graph-building code can raise. -/
inductive PyError where
  | attributeError (attr : String)
  | indexError
deriving DecidableEq, Repr

namespace SqueezeNetBypass

/-- Class attribute `init_weights = 'glorot_uniform'`. -/
def init_weights : String := "glorot_uniform"

/-- Class attribute `groups`: number of blocks and filters per group,
with simple bypass on blocks 2, 4, 6 and 8. -/
def groups : List (List BlockSpec) :=
  [ [ ⟨16, false⟩, ⟨16, true⟩, ⟨32, false⟩ ],
    [ ⟨32, true⟩, ⟨48, false⟩, ⟨48, true⟩, ⟨64, false⟩ ],
    [ ⟨64, true⟩ ] ]

/-- Method `stem`: 7x7/2 convolution with 96 filters, then 3x3/2 max pooling. -/
def stem (inputs : Tensor) : Tensor :=
  let x := Tensor.conv2D 96 (7, 7) 2 "same" "relu" init_weights inputs
  Tensor.maxPool2D (3, 3) 2 x

/-- Static method `fire_block`: squeeze 1x1 convolution with `n_filters`
filters, expand 1x1 and 3x3 convolutions with `n_filters * 4` filters each,
concatenation of the two expand branches, and, when `bypass` is set, an
`Add` of the concatenation and the block's input. -/
def fire_block (x : Tensor) (iw? : Option String) (n_filters : Nat)
    (bypass : Bool) : Tensor :=
  let iw := iw?.getD init_weights
  let squeeze := Tensor.conv2D n_filters (1, 1) 1 "same" "relu" iw x
  let expand1x1 := Tensor.conv2D (n_filters * 4) (1, 1) 1 "same" "relu" iw squeeze
  let expand3x3 := Tensor.conv2D (n_filters * 4) (3, 3) 1 "same" "relu" iw squeeze
  let c := Tensor.concat expand1x1 expand3x3
  if bypass then Tensor.add c x else c

/-- Static method `group`: one `fire_block` per block spec, in order, then
delayed downsampling with 3x3/2 max pooling. -/
def group (x : Tensor) (iw? : Option String) (blocks : List BlockSpec) : Tensor :=
  let iw := iw?.getD init_weights
  let y := blocks.foldl (fun t b => fire_block t (some iw) b.n_filters b.bypass) x
  Tensor.maxPool2D (3, 3) 2 y

/-- Method `learner`.  Without a `dropout` metaparameter the fallback reads
the class attribute `SqueezeNetBypass.dropout`, which is never defined, so
Python raises `AttributeError`; this is the `none` case.  `groups.pop()`
removes the last group (raising `IndexError` on an empty list); the loop
builds a `group` per remaining group spec; then a single `fire_block` from
`last[0]` (raising `IndexError` when the last group is empty); and finally
the delayed `Dropout`. -/
def learner (x : Tensor) (gs : List (List BlockSpec)) (dropout? : Option ℚ) :
    Except PyError Tensor :=
  match dropout? with
  | none => .error (.attributeError "dropout")
  | some dropout =>
    match gs.getLast? with
    | none => .error .indexError
    | some last =>
      let y := gs.dropLast.foldl (fun t g => group t none g) x
      match last.head? with
      | none => .error .indexError
      | some b =>
        .ok (Tensor.dropout dropout (fire_block y none b.n_filters b.bypass))

/-- Method `classifier`: 1x1 convolution with `n_classes` filters, global
average pooling, softmax activation. -/
def classifier (x : Tensor) (n_classes : Nat) : Tensor :=
  let y := Tensor.conv2D n_classes (1, 1) 1 "same" "relu" init_weights x
  Tensor.activationLayer "softmax" (Tensor.globalAveragePooling2D y)

end SqueezeNetBypass

/-- Mutable class-level state of `SqueezeNetBypass`: the `groups` class
attribute, which `learner`'s `groups.pop()` mutates when `__init__` is
called with `groups=None` (the local name then aliases the class attribute). -/
structure ClassState where
  groups : List (List BlockSpec)
deriving DecidableEq, Repr

/-- The class state as the module defines it. -/
def defaultClassState : ClassState := ⟨SqueezeNetBypass.groups⟩

/-- A Keras `Model(inputs, outputs)` object. -/
structure Model where
  inputs : Tensor
  outputs : Tensor
deriving DecidableEq, Repr

namespace SqueezeNetBypass

/-- Constructor `__init__(self, groups=None, dropout=0.5,
input_shape=(224,224,3), n_classes=1000)`.  Line 48 of the source hardcodes
`Input((224, 224, 3))`, so the `input_shape` argument is never used.  When
`groups` is `None` the class attribute is aliased and `groups.pop()` inside
`learner` removes its last element (the pop runs whenever the aliased list is
non-empty, since `__init__` always supplies `dropout`); the updated class
state is returned alongside the model. -/
def construct (st : ClassState) (groups? : Option (List (List BlockSpec)))
    (dropout : ℚ) (input_shape : List Nat) (n_classes : Nat) :
    Except PyError Model × ClassState :=
  let gs := groups?.getD st.groups
  let inputs := Tensor.input [224, 224, 3]
  let x := stem inputs
  let res := learner x gs (some dropout)
  let st' := if groups?.isNone && !gs.isEmpty then
      ClassState.mk st.groups.dropLast
    else st
  match res with
  | .error e => (.error e, st')
  | .ok y => (.ok ⟨inputs, classifier y n_classes⟩, st')

end SqueezeNetBypass

/-- Extracts, in construction order, the block specs of the fire blocks that
occur in a graph.  A fire block without bypass is recognised as the
concatenation of a 1x1 and a 3x3 expand convolution (each with four times the
squeeze filters) applied to one squeeze convolution; with bypass, as the `Add`
of such a concatenation and the squeeze convolution's own input. -/
def fireBlocksOf : Tensor → List BlockSpec
  | Tensor.input _ => []
  | Tensor.conv2D _ _ _ _ _ _ x => fireBlocksOf x
  | Tensor.maxPool2D _ _ x => fireBlocksOf x
  | Tensor.dropout _ x => fireBlocksOf x
  | Tensor.globalAveragePooling2D x => fireBlocksOf x
  | Tensor.activationLayer _ x => fireBlocksOf x
  | Tensor.add (Tensor.concat
        (Tensor.conv2D m1 k1 t1 p1 a1 w1 (Tensor.conv2D n ks ts ps ac w x))
        (Tensor.conv2D m2 k2 t2 p2 a2 w2 sq2)) shortcut =>
      if m1 = n * 4 ∧ m2 = n * 4 ∧ k1 = (1, 1) ∧ k2 = (3, 3) ∧ t1 = 1 ∧ t2 = 1
          ∧ p1 = "same" ∧ p2 = "same" ∧ a1 = "relu" ∧ a2 = "relu"
          ∧ w1 = w ∧ w2 = w ∧ ks = (1, 1) ∧ ts = 1 ∧ ps = "same" ∧ ac = "relu"
          ∧ sq2 = Tensor.conv2D n ks ts ps ac w x ∧ shortcut = x then
        fireBlocksOf x ++ [⟨n, true⟩]
      else fireBlocksOf x ++ fireBlocksOf sq2 ++ fireBlocksOf shortcut
  | Tensor.add a b => fireBlocksOf a ++ fireBlocksOf b
  | Tensor.concat
        (Tensor.conv2D m1 k1 t1 p1 a1 w1 (Tensor.conv2D n ks ts ps ac w x))
        (Tensor.conv2D m2 k2 t2 p2 a2 w2 sq2) =>
      if m1 = n * 4 ∧ m2 = n * 4 ∧ k1 = (1, 1) ∧ k2 = (3, 3) ∧ t1 = 1 ∧ t2 = 1
          ∧ p1 = "same" ∧ p2 = "same" ∧ a1 = "relu" ∧ a2 = "relu"
          ∧ w1 = w ∧ w2 = w ∧ ks = (1, 1) ∧ ts = 1 ∧ ps = "same" ∧ ac = "relu"
          ∧ sq2 = Tensor.conv2D n ks ts ps ac w x then
        fireBlocksOf x ++ [⟨n, false⟩]
      else fireBlocksOf x ++ fireBlocksOf sq2
  | Tensor.concat a b => fireBlocksOf a ++ fireBlocksOf b

/-- Number of channels of a tensor, per standard Keras semantics
(channels-last): a convolution outputs its filter count, `Concatenate` (on
the default last axis) sums its inputs' channels, `Add` and the pointwise and
pooling layers preserve channels, and global average pooling keeps one value
per channel. -/
def outChannels : Tensor → Nat
  | Tensor.input shape => shape.getLastD 0
  | Tensor.conv2D f _ _ _ _ _ _ => f
  | Tensor.maxPool2D _ _ x => outChannels x
  | Tensor.concat a b => outChannels a + outChannels b
  | Tensor.add a _ => outChannels a
  | Tensor.dropout _ x => outChannels x
  | Tensor.globalAveragePooling2D x => outChannels x
  | Tensor.activationLayer _ x => outChannels x

/-- Every `Add` node in the graph has operands with equal channel counts. -/
def addsBalanced : Tensor → Bool
  | Tensor.input _ => true
  | Tensor.conv2D _ _ _ _ _ _ x => addsBalanced x
  | Tensor.maxPool2D _ _ x => addsBalanced x
  | Tensor.concat a b => addsBalanced a && addsBalanced b
  | Tensor.add a b => addsBalanced a && addsBalanced b
      && (outChannels a == outChannels b)
  | Tensor.dropout _ x => addsBalanced x
  | Tensor.globalAveragePooling2D x => addsBalanced x
  | Tensor.activationLayer _ x => addsBalanced x

/-- Spatial output length of a Keras pooling layer with the default `valid`
padding along one dimension: `(n - pool) / strides + 1`, meaningful when the
input length `n` is at least the pool size. -/
def maxPoolOutDim (pool strides n : Nat) : Nat := (n - pool) / strides + 1

/-- Block specs in the order `learner` actually expands them: every block of
every group but the last, then the first block of the last group. -/
def expandedSpecs (gs : List (List BlockSpec)) : List BlockSpec :=
  gs.dropLast.flatten ++ (gs.getLast?.bind List.head?).toList

instance {ε α : Type} [DecidableEq ε] [DecidableEq α] : DecidableEq (Except ε α) := fun x y =>
  match x, y with
  | .error a, .error b =>
      if h : a = b then .isTrue (h ▸ rfl)
      else .isFalse (fun hh => h (Except.error.inj hh))
  | .ok a, .ok b =>
      if h : a = b then .isTrue (h ▸ rfl)
      else .isFalse (fun hh => h (Except.ok.inj hh))
  | .error _, .ok _ => .isFalse (fun hh => Except.noConfusion hh)
  | .ok _, .error _ => .isFalse (fun hh => Except.noConfusion hh)

/-- Every block whose `bypass` flag is set has the same `n_filters` as the
block immediately preceding it in the list. -/
def bypassChainOk : List BlockSpec → Bool
  | [] => true
  | [_] => true
  | a :: b :: rest =>
      (!b.bypass || (b.n_filters == a.n_filters)) && bypassChainOk (b :: rest)

theorem fireBlocksOf_fire_block (x : Tensor) (iw? : Option String) (n : Nat) (b : Bool) :
    fireBlocksOf (SqueezeNetBypass.fire_block x iw? n b)
      = fireBlocksOf x ++ [⟨n, b⟩] := by
  cases b <;> simp [SqueezeNetBypass.fire_block, fireBlocksOf]

theorem fireBlocksOf_foldl_fire_block (x : Tensor) (iw : String)
    (blocks : List BlockSpec) :
    fireBlocksOf (blocks.foldl
        (fun t b => SqueezeNetBypass.fire_block t (some iw) b.n_filters b.bypass) x)
      = fireBlocksOf x ++ blocks := by
  induction blocks generalizing x with
  | nil => simp
  | cons b rest ih => simp [List.foldl_cons, ih, fireBlocksOf_fire_block]

theorem fireBlocksOf_group (x : Tensor) (iw? : Option String)
    (blocks : List BlockSpec) :
    fireBlocksOf (SqueezeNetBypass.group x iw? blocks) = fireBlocksOf x ++ blocks := by
  simp [SqueezeNetBypass.group, fireBlocksOf, fireBlocksOf_foldl_fire_block]

theorem fireBlocksOf_foldl_group (x : Tensor) (gs : List (List BlockSpec)) :
    fireBlocksOf (gs.foldl (fun t g => SqueezeNetBypass.group t none g) x)
      = fireBlocksOf x ++ gs.flatten := by
  induction gs generalizing x with
  | nil => simp
  | cons g rest ih => simp [List.foldl_cons, ih, fireBlocksOf_group]

theorem fireBlocksOf_classifier (x : Tensor) (n_classes : Nat) :
    fireBlocksOf (SqueezeNetBypass.classifier x n_classes) = fireBlocksOf x := by
  simp [SqueezeNetBypass.classifier, fireBlocksOf]

theorem fireBlocksOf_stem (x : Tensor) :
    fireBlocksOf (SqueezeNetBypass.stem x) = fireBlocksOf x := by
  simp [SqueezeNetBypass.stem, fireBlocksOf]

/-- A configuration whose last group holds two block specs, used to exhibit
that `learner` expands only the first block of the popped last group. -/
def cfgTwoBlockLast : List (List BlockSpec) :=
  [ [⟨16, false⟩, ⟨16, true⟩], [⟨32, false⟩, ⟨32, true⟩] ]

/-- C1 (counterexample): constructing with `cfgTwoBlockLast` yields a graph
with three fire blocks, although the configuration has four block specs —
the second block of the last group is silently dropped. -/
theorem squeezenet_last_group_truncated_cex :
    (SqueezeNetBypass.construct defaultClassState (some cfgTwoBlockLast) (1/2)
        [224, 224, 3] 1000).1.map (fun m => fireBlocksOf m.outputs)
      = Except.ok [⟨16, false⟩, ⟨16, true⟩, ⟨32, false⟩] ∧
    cfgTwoBlockLast.flatten ≠ [⟨16, false⟩, ⟨16, true⟩, ⟨32, false⟩] := by
  decide

/-- C1 (amended): for every configuration whose last group is non-empty,
construction expands, in configuration order, every block spec of every group
except the last, and exactly the first block spec of the last group, each
into one fire block; the remaining specs of the last group produce none. -/
theorem squeezenet_construct_expands_specs (st : ClassState)
    (gs : List (List BlockSpec)) (b : BlockSpec) (rest : List BlockSpec)
    (d : ℚ) (ish : List Nat) (nc : Nat) :
    (SqueezeNetBypass.construct st (some (gs ++ [b :: rest])) d ish nc).1.map
        (fun m => fireBlocksOf m.outputs)
      = Except.ok (gs.flatten ++ [b]) := by
  simp [SqueezeNetBypass.construct, SqueezeNetBypass.learner, List.getLast?_concat,
    List.dropLast_concat, Except.map, fireBlocksOf_classifier,
    fireBlocksOf_fire_block, fireBlocksOf_foldl_group, fireBlocksOf_stem,
    fireBlocksOf]

/-- C2: the code violates the claim — constructing with default arguments
pops the last group off the class-level `groups` attribute, so the class
state changes and a second default construction builds a different graph. -/
theorem squeezenet_default_construct_mutates_groups :
    (SqueezeNetBypass.construct defaultClassState none (1/2) [224, 224, 3] 1000).2
        = ClassState.mk SqueezeNetBypass.groups.dropLast ∧
    (SqueezeNetBypass.construct defaultClassState none (1/2) [224, 224, 3] 1000).2
        ≠ defaultClassState ∧
    (SqueezeNetBypass.construct defaultClassState none (1/2) [224, 224, 3] 1000).1.map
        (fun m => fireBlocksOf m.outputs)
        = Except.ok [⟨16, false⟩, ⟨16, true⟩, ⟨32, false⟩, ⟨32, true⟩,
            ⟨48, false⟩, ⟨48, true⟩, ⟨64, false⟩, ⟨64, true⟩] ∧
    (SqueezeNetBypass.construct
          (SqueezeNetBypass.construct defaultClassState none (1/2)
            [224, 224, 3] 1000).2
          none (1/2) [224, 224, 3] 1000).1.map
        (fun m => fireBlocksOf m.outputs)
        = Except.ok [⟨16, false⟩, ⟨16, true⟩, ⟨32, false⟩, ⟨32, true⟩] := by
  decide

/-- C3: the code violates the input-shape half of the claim — constructing
with `input_shape = (32, 32, 3)` still yields a model whose input tensor has
shape `(224, 224, 3)`, because line 48 hardcodes `Input((224, 224, 3))`; the
`n_classes` half does hold (the classifier output has 10 channels here). -/
theorem squeezenet_input_shape_ignored :
    (SqueezeNetBypass.construct defaultClassState none (1/2) [32, 32, 3] 10).1.map
        Model.inputs = Except.ok (Tensor.input [224, 224, 3]) ∧
    Tensor.input [224, 224, 3] ≠ Tensor.input [32, 32, 3] ∧
    (SqueezeNetBypass.construct defaultClassState none (1/2) [32, 32, 3] 10).1.map
        (fun m => outChannels m.outputs) = Except.ok 10 := by
  decide

/-- C4: `fire_block` output is the `Add` of the expand concatenation and the
block's input exactly when `bypass` is set; without bypass it is exactly the
concatenation of the two expand branches (never an `Add`). -/
theorem fire_block_bypass_conditional_add (x : Tensor) (iw? : Option String)
    (n : Nat) (b : Bool) :
    (SqueezeNetBypass.fire_block x iw? n b
        = if b then Tensor.add (SqueezeNetBypass.fire_block x iw? n false) x
          else SqueezeNetBypass.fire_block x iw? n false) ∧
    ∃ e1 e3, SqueezeNetBypass.fire_block x iw? n false = Tensor.concat e1 e3 := by
  cases b <;> exact ⟨rfl, _, _, rfl⟩

/-- C5: the constructor composes the three stages in order — the model it
stores wires the input tensor to `classifier (learner (stem input))`. -/
theorem squeezenet_construct_composes_stages (st : ClassState)
    (gs? : Option (List (List BlockSpec))) (d : ℚ) (ish : List Nat) (nc : Nat) :
    (SqueezeNetBypass.construct st gs? d ish nc).1
      = (SqueezeNetBypass.learner
          (SqueezeNetBypass.stem (Tensor.input [224, 224, 3]))
          (gs?.getD st.groups) (some d)).map
        (fun y => Model.mk (Tensor.input [224, 224, 3])
          (SqueezeNetBypass.classifier y nc)) := by
  cases h : SqueezeNetBypass.learner
      (SqueezeNetBypass.stem (Tensor.input [224, 224, 3]))
      (gs?.getD st.groups) (some d) with
  | error e => simp [SqueezeNetBypass.construct, h, Except.map]
  | ok y => simp [SqueezeNetBypass.construct, h, Except.map]

/-- C6: `group` applies a stride-2 3x3 max-pooling layer on top of the fold
of the group's fire blocks, and for every spatial extent of at least the pool
size the pooled extent is strictly smaller. -/
theorem group_pools_after_blocks (x : Tensor) (iw? : Option String)
    (blocks : List BlockSpec) :
    (∃ y, SqueezeNetBypass.group x iw? blocks = Tensor.maxPool2D (3, 3) 2 y ∧
        fireBlocksOf y = fireBlocksOf x ++ blocks) ∧
    ∀ n, 3 ≤ n → maxPoolOutDim 3 2 n < n := by
  constructor
  · exact ⟨_, rfl, fireBlocksOf_foldl_fire_block _ _ _⟩
  · intro n hn
    have h2 := Nat.div_le_self (n - 3) 2
    simp only [maxPoolOutDim]
    omega

/-- C6 witness at a concrete group and spatial extent 55. -/
theorem group_pools_after_blocks_witness :
    (∃ y, SqueezeNetBypass.group (Tensor.input [224, 224, 3]) none [⟨16, false⟩]
        = Tensor.maxPool2D (3, 3) 2 y ∧
        fireBlocksOf y = fireBlocksOf (Tensor.input [224, 224, 3]) ++ [⟨16, false⟩]) ∧
    maxPoolOutDim 3 2 55 < 55 :=
  ⟨(group_pools_after_blocks (Tensor.input [224, 224, 3]) none [⟨16, false⟩]).1,
   (group_pools_after_blocks (Tensor.input [224, 224, 3]) none [⟨16, false⟩]).2
     55 (by decide)⟩

/-- C7: construction is deterministic — equal arguments (the group lists
supplied explicitly, possibly as separate but equal lists) give equal
model-and-state results. -/
theorem construct_deterministic (st : ClassState)
    (g1 g2 : List (List BlockSpec)) (d1 d2 : ℚ) (ish1 ish2 : List Nat)
    (nc1 nc2 : Nat) (hg : g1 = g2) (hd : d1 = d2) (hish : ish1 = ish2)
    (hnc : nc1 = nc2) :
    SqueezeNetBypass.construct st (some g1) d1 ish1 nc1
      = SqueezeNetBypass.construct st (some g2) d2 ish2 nc2 := by
  rw [hg, hd, hish, hnc]

/-- C7 witness with two separately written, equal configuration lists. -/
theorem construct_deterministic_witness :
    SqueezeNetBypass.construct defaultClassState (some [[⟨16, false⟩]]) (1/2)
        [224, 224, 3] 10
      = SqueezeNetBypass.construct defaultClassState
          (some ([⟨16, false⟩] :: [])) (1/2) [224, 224, 3] 10 :=
  construct_deterministic defaultClassState _ _ _ _ _ _ _ _
    (by decide) rfl rfl rfl

/-- C8: calling `learner` without a `dropout` metaparameter hits the
fallback read of the undefined class attribute `SqueezeNetBypass.dropout`
and raises `AttributeError`, for every input and configuration. -/
theorem learner_without_dropout_attribute_error (x : Tensor)
    (gs : List (List BlockSpec)) :
    SqueezeNetBypass.learner x gs none
      = Except.error (PyError.attributeError "dropout") := rfl

/-- C9: both expand branches of a fire block carry `n_filters * 4` filters,
so a block without bypass outputs `8 * n_filters` channels. -/
theorem fire_block_expand_four_times (x : Tensor) (iw? : Option String)
    (n : Nat) (b : Bool) :
    ∃ sq c,
      c = Tensor.concat
          (Tensor.conv2D (n * 4) (1, 1) 1 "same" "relu"
            (iw?.getD SqueezeNetBypass.init_weights) sq)
          (Tensor.conv2D (n * 4) (3, 3) 1 "same" "relu"
            (iw?.getD SqueezeNetBypass.init_weights) sq) ∧
      SqueezeNetBypass.fire_block x iw? n b = (if b then Tensor.add c x else c) ∧
      outChannels (SqueezeNetBypass.fire_block x iw? n false) = 8 * n := by
  refine ⟨Tensor.conv2D n (1, 1) 1 "same" "relu"
      (iw?.getD SqueezeNetBypass.init_weights) x, _, rfl, ?_, ?_⟩
  · cases b <;> rfl
  · have h : outChannels (SqueezeNetBypass.fire_block x iw? n false)
        = n * 4 + n * 4 := rfl
    rw [h]; ring

/-- C10: in the default configuration every bypass block repeats its
predecessor's `n_filters`, and in the graph actually constructed with the
default arguments every `Add` node has operands with equal channel counts. -/
theorem default_bypass_blocks_match_predecessors :
    bypassChainOk (expandedSpecs SqueezeNetBypass.groups) = true ∧
    (SqueezeNetBypass.construct defaultClassState none (1/2) [224, 224, 3] 1000).1.map
        (fun m => addsBalanced m.outputs) = Except.ok true := by
  decide
